import Mathlib

-- Verification of the demandsense-ai inventory/forecast analytics core.
-- Shallow embedding over ℚ (exact arithmetic) and ℝ (where the source uses
-- sqrt/exp).  JavaScript number quirks that matter to the claims (Math.round
-- semantics, division by zero producing Infinity/NaN, falsy defaults) are
-- modelled explicitly below.

set_option maxHeartbeats 1000000

/-- JavaScript Math.round: round half toward positive infinity.
Math.round(x) = floor(x + 1/2) for every finite x. -/
def jsRound {α : Type} [LinearOrderedField α] [FloorRing α] (x : α) : ℤ :=
  ⌊x + (1 / 2 : α)⌋

/-- The value of a JavaScript floating-point division of finite operands:
either a finite number, a signed infinity, or NaN. -/
inductive JSNum : Type
  | num : ℚ → JSNum
  | posInf : JSNum
  | negInf : JSNum
  | nan : JSNum
deriving DecidableEq

/-- JavaScript division of two finite numbers: b = 0 gives NaN when a = 0
and a signed infinity otherwise; anything else is exact division. -/
def jsDiv (a b : ℚ) : JSNum :=
  if b = 0 then
    if a = 0 then JSNum.nan
    else if 0 < a then JSNum.posInf
    else JSNum.negInf
  else JSNum.num (a / b)

/-- JavaScript comparison `x <= c` for a division result x and a finite
literal c: false when x is NaN or +Infinity, true when x is -Infinity. -/
def jsLeNum : JSNum → ℚ → Bool
  | JSNum.num a, c => decide (a ≤ c)
  | JSNum.posInf, _ => false
  | JSNum.negInf, _ => true
  | JSNum.nan, _ => false

-- ### server/inventory-calculator.js

/-- One point of a forecast series: the numeric fields read and written by
the analytics core, plus the optional annotation fields the scenario routes
attach (modelled by the numeric content of the label string). -/
structure ForecastPoint where
  predicted : ℚ
  upper_bound : ℚ
  lower_bound : ℚ
  scenario_impact : Option ℚ := none
  promotion_lift : Option ℚ := none
deriving DecidableEq

/-- calculateFillRate: unitsShipped / unitsOrdered, 1 when unitsOrdered is 0
(the JS guard `!unitsOrdered || unitsOrdered === 0`). -/
def calculateFillRate (unitsShipped unitsOrdered : ℚ) : ℚ :=
  if unitsOrdered = 0 then 1 else unitsShipped / unitsOrdered

/-- Result record of calculateOptimalOrder. -/
structure OptimalOrder where
  recommended : ℤ
  adjusted : ℤ
  final : ℤ
  urgent : Bool
  critical : Bool
deriving DecidableEq

/-- calculateOptimalOrder(forecast, currentStock, reorderPoint, maxStock):
recommendedOrder = max(0, reorderPoint - currentStock);
forecastedDemand = sum of predicted over the first 7 forecast points;
adjustedOrder = max(recommendedOrder, forecastedDemand * 1.2);
finalOrder = min(adjustedOrder, maxStock - currentStock);
returns Math.round of the first two, max(0, Math.round finalOrder), and the
urgency flags. -/
def calculateOptimalOrder (forecast : List ForecastPoint)
    (currentStock reorderPoint maxStock : ℚ) : OptimalOrder :=
  let recommendedOrder := max 0 (reorderPoint - currentStock)
  let forecastedDemand := ((forecast.take 7).map ForecastPoint.predicted).sum
  let adjustedOrder := max recommendedOrder (forecastedDemand * (6 / 5))
  let finalOrder := min adjustedOrder (maxStock - currentStock)
  { recommended := jsRound recommendedOrder
    adjusted := jsRound adjustedOrder
    final := max 0 (jsRound finalOrder)
    urgent := decide (currentStock < reorderPoint * (1 / 2))
    critical := decide (currentStock < reorderPoint * (1 / 4)) }

/-- An item fed to classifyABC: its annualValue (the default valueKey) and
the class field the classifier writes (none before classification). -/
structure ABCItem where
  annualValue : ℚ
  cls : Option Char := none
deriving DecidableEq

/-- The JS sort comparator (a, b) => b[valueKey] - a[valueKey]: a may come
before b exactly when b.annualValue ≤ a.annualValue (descending order);
Array.prototype.sort is stable, as is List.mergeSort. -/
def abcLe (a b : ABCItem) : Bool :=
  decide (b.annualValue ≤ a.annualValue)

/-- The class assigned from the cumulative-fraction division result:
A while percentage <= 0.8, B while percentage <= 0.95, else C. -/
def classChar (percentage : JSNum) : Char :=
  if jsLeNum percentage (4 / 5) then 'A'
  else if jsLeNum percentage (19 / 20) then 'B'
  else 'C'

/-- The classification loop of classifyABC: walk the sorted list, keep the
running cumulative value, and write each item class from
cumulative / totalValue (JS division, hence NaN/Infinity when total = 0). -/
def annotateABC (totalValue : ℚ) : ℚ → List ABCItem → List ABCItem
  | _, [] => []
  | cumulative, item :: rest =>
    let cumulative2 := cumulative + item.annualValue
    { item with cls := some (classChar (jsDiv cumulative2 totalValue)) } ::
      annotateABC totalValue cumulative2 rest

/-- classifyABC(items): sort a copy descending by value (stable), total the
values, then classify by running cumulative fraction of the total. -/
def classifyABC (items : List ABCItem) : List ABCItem :=
  let sorted := items.mergeSort abcLe
  let totalValue := (sorted.map ABCItem.annualValue).sum
  annotateABC totalValue 0 sorted

/-- Number of items of a list carrying class c. -/
def countClass (c : Char) (l : List ABCItem) : ℕ :=
  l.countP (fun x => decide (x.cls = some c))

-- ### routes/api/scenarios.js

/-- The demand-shock perturbation applied to one forecast point: spread the
item and multiply predicted/upper_bound/lower_bound by the multiplier,
tagging it with the scenario label (modelled by the multiplier value). -/
def shockPoint (multiplier : ℚ) (p : ForecastPoint) : ForecastPoint :=
  { p with
    predicted := p.predicted * multiplier
    upper_bound := p.upper_bound * multiplier
    lower_bound := p.lower_bound * multiplier
    scenario_impact := some multiplier }

/-- The promotion perturbation applied to one forecast point: same shape as
the demand shock, with the promotion_lift label instead. -/
def promoPoint (lift : ℚ) (p : ForecastPoint) : ForecastPoint :=
  { p with
    predicted := p.predicted * lift
    upper_bound := p.upper_bound * lift
    lower_bound := p.lower_bound * lift
    promotion_lift := some lift }

/-- The body of baseForecast.forecast.map((item, index) => ...) in the
demand-shock route, with the running index made explicit. -/
def applyDemandShockFrom (multiplier : ℚ) (duration : ℕ) :
    ℕ → List ForecastPoint → List ForecastPoint
  | _, [] => []
  | i, item :: rest =>
    (if i < duration then shockPoint multiplier item else item) ::
      applyDemandShockFrom multiplier duration (i + 1) rest

/-- POST /demand-shock, impactedForecast: multiply the first `duration`
points by `multiplier`; later points are returned unchanged. -/
def applyDemandShock (forecast : List ForecastPoint) (multiplier : ℚ)
    (duration : ℕ) : List ForecastPoint :=
  applyDemandShockFrom multiplier duration 0 forecast

/-- A scenario: its type tag and the parameters map (only the multiplier
member is read by calculateScenarioImpact). -/
structure Scenario where
  type : String
  multiplier : Option ℚ := none

/-- A product record; calculateScenarioImpact only counts products. -/
structure Product where
  current_stock : ℚ := 0
  daily_demand : ℚ := 10

/-- The JS expression `x || d` on an optionally-present number x:
the default d when x is absent or 0 (both are falsy). -/
def jsOrDefault (x : Option ℚ) (d : ℚ) : ℚ :=
  match x with
  | some v => if v = 0 then d else v
  | none => d

/-- Result record of calculateScenarioImpact. -/
structure ScenarioImpact where
  totalDemandImpact : ℤ
  percentageChange : ℤ
  productsAffected : ℕ
  severity : String
deriving DecidableEq

/-- calculateScenarioImpact(baseForecast, scenario, products): multiplier
1.5 (default) for demand_shock, 2 (default) for promotion, 1 for every
other type; impact figures derived from (multiplier - 1). -/
def calculateScenarioImpact (baseForecast : List ForecastPoint)
    (scenario : Scenario) (products : List Product) : ScenarioImpact :=
  let totalDemand := (baseForecast.map ForecastPoint.predicted).sum
  let impactMultiplier : ℚ :=
    if scenario.type = "demand_shock" then jsOrDefault scenario.multiplier (3 / 2)
    else if scenario.type = "promotion" then jsOrDefault scenario.multiplier 2
    else 1
  { totalDemandImpact := jsRound (totalDemand * (impactMultiplier - 1))
    percentageChange := jsRound ((impactMultiplier - 1) * 100)
    productsAffected := products.length
    severity :=
      if 3 / 2 < impactMultiplier then "high"
      else if 6 / 5 < impactMultiplier then "medium"
      else "low" }

/-- A default forecast-point object, used only as the out-of-range fallback
of heap reads (valid executions never reach it). -/
def defaultPoint : ForecastPoint :=
  { predicted := 0, upper_bound := 0, lower_bound := 0 }

/-- Heap model of the demand-shock route: forecast points are objects on a
heap (addresses are list indices, allocation appends), the base forecast is
a list of references.  Points within `duration` are fresh allocations built
by spreading the referenced point; later positions reuse the old reference.
Nothing ever writes to an existing address. -/
def demandShockHeapFrom (multiplier : ℚ) (duration : ℕ) :
    List ForecastPoint → ℕ → List ℕ → List ForecastPoint × List ℕ
  | heap, _, [] => (heap, [])
  | heap, i, r :: rs =>
    if i < duration then
      let obj := shockPoint multiplier (heap.getD r defaultPoint)
      let res := demandShockHeapFrom multiplier duration (heap ++ [obj]) (i + 1) rs
      (res.1, heap.length :: res.2)
    else
      let res := demandShockHeapFrom multiplier duration heap (i + 1) rs
      (res.1, r :: res.2)

/-- The demand-shock route over the heap model, starting at index 0. -/
def demandShockHeap (heap : List ForecastPoint) (refs : List ℕ)
    (multiplier : ℚ) (duration : ℕ) : List ForecastPoint × List ℕ :=
  demandShockHeapFrom multiplier duration heap 0 refs

/-- Heap model of the promotion route (same shape, promotion label). -/
def promotionHeapFrom (lift : ℚ) (duration : ℕ) :
    List ForecastPoint → ℕ → List ℕ → List ForecastPoint × List ℕ
  | heap, _, [] => (heap, [])
  | heap, i, r :: rs =>
    if i < duration then
      let obj := promoPoint lift (heap.getD r defaultPoint)
      let res := promotionHeapFrom lift duration (heap ++ [obj]) (i + 1) rs
      (res.1, heap.length :: res.2)
    else
      let res := promotionHeapFrom lift duration heap (i + 1) rs
      (res.1, r :: res.2)

/-- The promotion route over the heap model, starting at index 0. -/
def promotionHeap (heap : List ForecastPoint) (refs : List ℕ)
    (lift : ℚ) (duration : ℕ) : List ForecastPoint × List ℕ :=
  promotionHeapFrom lift duration heap 0 refs

-- ### server/seasonality-utils.js

/-- A sales record as seen by detectSeasonality: its date (a sortable
timestamp) and its numeric sales value (the result of parseFloat || 0). -/
structure SalesRecord where
  date : ℤ
  sales : ℚ

/-- The chronological sort comparator (a, b) => new Date(a) - new Date(b). -/
def salesLe (a b : SalesRecord) : Bool :=
  decide (a.date ≤ b.date)

/-- checkPeriodicity(values, lag): 0 when values.length <= lag; otherwise
the absolute normalized autocorrelation at the given lag, 0 when the
denominator (total squared deviation) is 0. -/
def checkPeriodicity (values : List ℚ) (lag : ℕ) : ℚ :=
  if values.length ≤ lag then 0
  else
    let mean := values.sum / values.length
    let numerator :=
      ((List.range (values.length - lag)).map
        (fun i => (values.getD i 0 - mean) * (values.getD (i + lag) 0 - mean))).sum
    let denominator :=
      ((List.range values.length).map (fun i => (values.getD i 0 - mean) ^ 2)).sum
    if denominator = 0 then 0 else |numerator / denominator|

/-- Result of detectSeasonality, restricted to the fields the claims
observe; the day-of-week profile and recommendation strings are further
output fields that do not feed back into these. -/
structure SeasonalityResult where
  detected : Bool
  pattern : Option String
  strength : ℚ
  reason : Option String

/-- detectSeasonality(data): insufficient-data result below 30 points; else
sort chronologically, extract values, measure weekly (lag 7) and monthly
(lag 30) autocorrelation, and pick weekly > 0.3 first, else monthly > 0.2,
else no pattern; strength is rounded to 2 decimals for presentation. -/
def detectSeasonality (data : List SalesRecord) : SeasonalityResult :=
  if data.length < 30 then
    { detected := false, pattern := none, strength := 0
      reason := some "Insufficient data" }
  else
    let sorted := data.mergeSort salesLe
    let values := sorted.map SalesRecord.sales
    let weeklyStrength := checkPeriodicity values 7
    let monthlyStrength := checkPeriodicity values 30
    let chosen : Option String × ℚ :=
      if 3 / 10 < weeklyStrength then (some "weekly", weeklyStrength)
      else if 1 / 5 < monthlyStrength then (some "monthly", monthlyStrength)
      else (none, 0)
    { detected := chosen.1.isSome
      pattern := chosen.1
      strength := (jsRound (chosen.2 * 100) : ℚ) / 100
      reason := none }

-- ### server/inventory-calculator.js, functions using sqrt and exp (ℝ)

/-- calculateStockoutProbability(averageDemand, safetyStock, demandStdDev):
0 when demandStdDev is 0; else exp(-0.717 z - 0.416 z²) with
z = safetyStock / demandStdDev, clamped into [0, 1] by
Math.min(1, Math.max(0, p)).  averageDemand is unused, as in the source. -/
noncomputable def calculateStockoutProbability
    (averageDemand safetyStock demandStdDev : ℝ) : ℝ :=
  if demandStdDev = 0 then 0
  else
    let z := safetyStock / demandStdDev
    min 1 (max 0 (Real.exp (-(717 / 1000) * z - (416 / 1000) * (z * z))))

/-- The z-score table of calculateSafetyStock: {0.90: 1.28, 0.95: 1.65,
0.99: 2.33}, default 1.65 for any other service level. -/
noncomputable def zScoreFor (serviceLevel : ℝ) : ℝ :=
  if serviceLevel = 9 / 10 then 128 / 100
  else if serviceLevel = 95 / 100 then 165 / 100
  else if serviceLevel = 99 / 100 then 233 / 100
  else 165 / 100

/-- calculateEOQ(annualDemand, orderingCost, holdingCost): null when any
argument is falsy (zero); else sqrt(2 D S / H) rounded to 2 decimals by
Math.round(eoq * 100) / 100. -/
noncomputable def calculateEOQ (annualDemand orderingCost holdingCost : ℝ) :
    Option ℝ :=
  if annualDemand = 0 ∨ orderingCost = 0 ∨ holdingCost = 0 then none
  else
    let eoq := Real.sqrt ((2 * annualDemand * orderingCost) / holdingCost)
    some ((jsRound (eoq * 100) : ℝ) / 100)

/-- calculateSafetyStock(averageDailyDemand, leadTimeDays, serviceLevel,
demandStdDev) = z * demandStdDev * sqrt(leadTimeDays), rounded to 2
decimals by Math.round(safetyStock * 100) / 100. -/
noncomputable def calculateSafetyStock
    (averageDailyDemand leadTimeDays serviceLevel demandStdDev : ℝ) : ℝ :=
  let z := zScoreFor serviceLevel
  let safetyStock := z * demandStdDev * Real.sqrt leadTimeDays
  (jsRound (safetyStock * 100) : ℝ) / 100

/-- calculateReorderPoint(averageDailyDemand, leadTimeDays, safetyStock):
the plain chained formula; calculateHealthMetrics feeds it the already
rounded output of calculateSafetyStock. -/
def calculateReorderPoint (averageDailyDemand leadTimeDays safetyStock : ℝ) : ℝ :=
  averageDailyDemand * leadTimeDays + safetyStock

/-- The 30-point flat base forecast of the spec test: predicted = 100. -/
def flatForecast30 : List ForecastPoint :=
  List.replicate 30 { predicted := 100, upper_bound := 110, lower_bound := 90 }

-- ### Helper lemmas

/-- Math.round is monotone. -/
theorem jsRound_mono {α : Type} [LinearOrderedField α] [FloorRing α]
    {x y : α} (h : x ≤ y) : jsRound x ≤ jsRound y := by
  exact Int.floor_le_floor (by linarith)

/-- Math.round lands within 1/2 of its argument. -/
theorem jsRound_abs_sub {α : Type} [LinearOrderedField α] [FloorRing α]
    (x : α) : |(jsRound x : α) - x| ≤ 1 / 2 := by
  have h1 : (jsRound x : α) ≤ x + 1 / 2 := Int.floor_le (x + (1 / 2 : α))
  have h2 : x + (1 / 2 : α) < (jsRound x : α) + 1 :=
    Int.lt_floor_add_one (x + (1 / 2 : α))
  rw [abs_le]
  constructor <;> linarith

-- ### C8

/-- C8: calculateFillRate returns unitsShipped/unitsOrdered for a nonzero
unitsOrdered, and by convention 1 when unitsOrdered is 0; in particular
fillRate(950, 1000) = 0.95 and fillRate(0, 0) = 1. -/
theorem calculateFillRate_spec :
    (∀ unitsShipped unitsOrdered : ℚ, unitsOrdered ≠ 0 →
      calculateFillRate unitsShipped unitsOrdered = unitsShipped / unitsOrdered) ∧
    (∀ unitsShipped : ℚ, calculateFillRate unitsShipped 0 = 1) ∧
    calculateFillRate 950 1000 = 95 / 100 ∧
    calculateFillRate 0 0 = 1 := by
  refine ⟨fun s o ho => ?_, fun s => ?_, ?_, ?_⟩
  · simp [calculateFillRate, ho]
  · simp [calculateFillRate]
  · norm_num [calculateFillRate]
  · simp [calculateFillRate]

/-- Witness for C8 at unitsShipped = 950, unitsOrdered = 1000. -/
theorem calculateFillRate_spec_witness :
    calculateFillRate 950 1000 = 950 / 1000 :=
  calculateFillRate_spec.1 950 1000 (by norm_num)

-- ### C6

/-- C6: a scenario whose type is outside {demand_shock, supply_disruption,
promotion, custom} is a no-op for calculateScenarioImpact: zero total
demand impact, zero percentage change, severity low (and the function is
total, so no exception is possible). -/
theorem calculateScenarioImpact_unknown_type
    (baseForecast : List ForecastPoint) (scenario : Scenario)
    (products : List Product)
    (h1 : scenario.type ≠ "demand_shock")
    (h2 : scenario.type ≠ "supply_disruption")
    (h3 : scenario.type ≠ "promotion")
    (h4 : scenario.type ≠ "custom") :
    (calculateScenarioImpact baseForecast scenario products).totalDemandImpact = 0 ∧
    (calculateScenarioImpact baseForecast scenario products).percentageChange = 0 ∧
    (calculateScenarioImpact baseForecast scenario products).severity = "low" := by
  refine ⟨?_, ?_, ?_⟩ <;>
    simp [calculateScenarioImpact, h1, h3, jsRound] <;>
    norm_num

/-- Witness for C6: a typo scenario type on a tiny input. -/
theorem calculateScenarioImpact_unknown_type_witness :
    (calculateScenarioImpact [] { type := "demand_shok" } []).totalDemandImpact = 0 ∧
    (calculateScenarioImpact [] { type := "demand_shok" } []).percentageChange = 0 ∧
    (calculateScenarioImpact [] { type := "demand_shok" } []).severity = "low" :=
  calculateScenarioImpact_unknown_type [] { type := "demand_shok" } []
    (by decide) (by decide) (by decide) (by decide)

-- ### C3

/-- C3 counterexample: with an empty forecast, currentStock = 0,
reorderPoint = 100, maxStock = 3/5, the code returns final = 1 (the
rounded value), which differs from the claimed max(0, min(adjusted,
maxStock - currentStock)) = 3/5 and exceeds maxStock - currentStock. -/
theorem calculateOptimalOrder_cex :
    (calculateOptimalOrder [] 0 100 (3 / 5)).final = 1 ∧
    ¬ (((calculateOptimalOrder [] 0 100 (3 / 5)).final : ℚ) ≤ (3 / 5 : ℚ) - 0) := by
  have hfinal : (calculateOptimalOrder [] 0 100 (3 / 5)).final = 1 := by
    simp only [calculateOptimalOrder, jsRound]
    norm_num
  refine ⟨hfinal, ?_⟩
  rw [hfinal]
  norm_num

/-- C3 (amended): calculateOptimalOrder returns the claimed formulas with
Math.round applied — recommended = round(max(0, reorderPoint -
currentStock)), adjusted = round(max(recommended₀, 1.2·sum₇)), final =
max(0, round(min(adjusted₀, maxStock - currentStock))) — so final is never
negative and never exceeds max(0, round(maxStock - currentStock)); urgent
and critical are the claimed strict threshold comparisons; and the concrete
instance currentStock = 0, reorderPoint = 50, maxStock = 200 with an empty
forecast gives recommended = 50, final = 50, urgent, critical. -/
theorem calculateOptimalOrder_spec
    (forecast : List ForecastPoint) (currentStock reorderPoint maxStock : ℚ) :
    (calculateOptimalOrder forecast currentStock reorderPoint maxStock).recommended
      = jsRound (max 0 (reorderPoint - currentStock)) ∧
    (calculateOptimalOrder forecast currentStock reorderPoint maxStock).adjusted
      = jsRound (max (max 0 (reorderPoint - currentStock))
          (((forecast.take 7).map ForecastPoint.predicted).sum * (6 / 5))) ∧
    (calculateOptimalOrder forecast currentStock reorderPoint maxStock).final
      = max 0 (jsRound (min (max (max 0 (reorderPoint - currentStock))
          (((forecast.take 7).map ForecastPoint.predicted).sum * (6 / 5)))
          (maxStock - currentStock))) ∧
    0 ≤ (calculateOptimalOrder forecast currentStock reorderPoint maxStock).final ∧
    (calculateOptimalOrder forecast currentStock reorderPoint maxStock).final
      ≤ max 0 (jsRound (maxStock - currentStock)) ∧
    ((calculateOptimalOrder forecast currentStock reorderPoint maxStock).urgent = true
      ↔ currentStock < reorderPoint * (1 / 2)) ∧
    ((calculateOptimalOrder forecast currentStock reorderPoint maxStock).critical = true
      ↔ currentStock < reorderPoint * (1 / 4)) ∧
    calculateOptimalOrder [] 0 50 200 =
      { recommended := 50, adjusted := 50, final := 50
        urgent := true, critical := true } := by
  refine ⟨rfl, rfl, rfl, le_max_left 0 _, ?_, ?_, ?_, ?_⟩
  · exact max_le_max (le_refl 0) (jsRound_mono (min_le_right _ _))
  · simp [calculateOptimalOrder]
  · simp [calculateOptimalOrder]
  · simp only [calculateOptimalOrder, jsRound]
    norm_num

-- ### C2

/-- Indexed lookup through the demand-shock map, for any start index. -/
theorem applyDemandShockFrom_getElem (multiplier : ℚ) (duration : ℕ) :
    ∀ (l : List ForecastPoint) (s i : ℕ),
      (applyDemandShockFrom multiplier duration s l)[i]? =
        (l[i]?).map
          (fun p => if s + i < duration then shockPoint multiplier p else p) := by
  intro l
  induction l with
  | nil => intro s i; simp [applyDemandShockFrom]
  | cons hd tl ih =>
    intro s i
    cases i with
    | zero => simp [applyDemandShockFrom]
    | succ i =>
      simp only [applyDemandShockFrom, List.getElem?_cons_succ]
      rw [ih (s + 1) i, show s + 1 + i = s + (i + 1) from by omega]

/-- C2: the demand-shock scenario multiplies predicted, upper_bound and
lower_bound by the multiplier for exactly the first `duration` points and
leaves every later point unchanged; applied with multiplier 1.5 and
duration 7 to the 30-point flat forecast of predicted = 100, the first 7
output points have predicted = 150 and points 8 through 30 keep 100. -/
theorem applyDemandShock_spec :
    (∀ (forecast : List ForecastPoint) (multiplier : ℚ) (duration i : ℕ),
      i < duration →
        (applyDemandShock forecast multiplier duration)[i]? =
          (forecast[i]?).map (shockPoint multiplier)) ∧
    (∀ (forecast : List ForecastPoint) (multiplier : ℚ) (duration i : ℕ),
      duration ≤ i →
        (applyDemandShock forecast multiplier duration)[i]? = forecast[i]?) ∧
    (∀ i : ℕ, i < 7 →
      ((applyDemandShock flatForecast30 (3 / 2) 7)[i]?).map ForecastPoint.predicted
        = some 150) ∧
    (∀ i : ℕ, 7 ≤ i → i < 30 →
      ((applyDemandShock flatForecast30 (3 / 2) 7)[i]?).map ForecastPoint.predicted
        = some 100) := by
  have hlt : ∀ (forecast : List ForecastPoint) (multiplier : ℚ) (duration i : ℕ),
      i < duration →
        (applyDemandShock forecast multiplier duration)[i]? =
          (forecast[i]?).map (shockPoint multiplier) := by
    intro fc m dur i h
    rw [applyDemandShock, applyDemandShockFrom_getElem]
    simp [h]
  have hge : ∀ (forecast : List ForecastPoint) (multiplier : ℚ) (duration i : ℕ),
      duration ≤ i →
        (applyDemandShock forecast multiplier duration)[i]? = forecast[i]? := by
    intro fc m dur i h
    rw [applyDemandShock, applyDemandShockFrom_getElem]
    have hnot : ¬ (i < dur) := by omega
    simp [hnot]
  refine ⟨hlt, hge, ?_, ?_⟩
  · intro i hi
    rw [hlt flatForecast30 (3 / 2) 7 i hi]
    have h30 : i < 30 := by omega
    rw [show flatForecast30 = List.replicate 30
        { predicted := 100, upper_bound := 110, lower_bound := 90 } from rfl,
      List.getElem?_replicate, if_pos h30]
    simp only [Option.map_some']
    simp [shockPoint]
    norm_num
  · intro i hi7 hi30
    rw [hge flatForecast30 (3 / 2) 7 i hi7]
    rw [show flatForecast30 = List.replicate 30
        { predicted := 100, upper_bound := 110, lower_bound := 90 } from rfl,
      List.getElem?_replicate, if_pos hi30]
    simp

/-- Witness for C2 at the first point of the flat 30-point forecast. -/
theorem applyDemandShock_spec_witness :
    ((applyDemandShock flatForecast30 (3 / 2) 7)[0]?).map ForecastPoint.predicted
      = some 150 :=
  applyDemandShock_spec.2.2.1 0 (by norm_num)

-- ### C7

/-- The demand-shock route only ever extends the heap. -/
theorem demandShockHeapFrom_extends (multiplier : ℚ) (duration : ℕ) :
    ∀ (rs : List ℕ) (heap : List ForecastPoint) (i : ℕ),
      ∃ ext, (demandShockHeapFrom multiplier duration heap i rs).1 = heap ++ ext := by
  intro rs
  induction rs with
  | nil => intro heap i; exact ⟨[], by simp [demandShockHeapFrom]⟩
  | cons r rs ih =>
    intro heap i
    by_cases h : i < duration
    · obtain ⟨ext, hext⟩ :=
        ih (heap ++ [shockPoint multiplier (heap.getD r defaultPoint)]) (i + 1)
      refine ⟨[shockPoint multiplier (heap.getD r defaultPoint)] ++ ext, ?_⟩
      simp only [demandShockHeapFrom, if_pos h]
      rw [hext, List.append_assoc]
    · obtain ⟨ext, hext⟩ := ih heap (i + 1)
      refine ⟨ext, ?_⟩
      simp only [demandShockHeapFrom, if_neg h]
      exact hext

/-- The demand-shock route returns one reference per input reference. -/
theorem demandShockHeapFrom_length (multiplier : ℚ) (duration : ℕ) :
    ∀ (rs : List ℕ) (heap : List ForecastPoint) (i : ℕ),
      (demandShockHeapFrom multiplier duration heap i rs).2.length = rs.length := by
  intro rs
  induction rs with
  | nil => intro heap i; simp [demandShockHeapFrom]
  | cons r rs ih =>
    intro heap i
    by_cases h : i < duration <;> simp [demandShockHeapFrom, h, ih]

/-- The promotion route only ever extends the heap. -/
theorem promotionHeapFrom_extends (lift : ℚ) (duration : ℕ) :
    ∀ (rs : List ℕ) (heap : List ForecastPoint) (i : ℕ),
      ∃ ext, (promotionHeapFrom lift duration heap i rs).1 = heap ++ ext := by
  intro rs
  induction rs with
  | nil => intro heap i; exact ⟨[], by simp [promotionHeapFrom]⟩
  | cons r rs ih =>
    intro heap i
    by_cases h : i < duration
    · obtain ⟨ext, hext⟩ :=
        ih (heap ++ [promoPoint lift (heap.getD r defaultPoint)]) (i + 1)
      refine ⟨[promoPoint lift (heap.getD r defaultPoint)] ++ ext, ?_⟩
      simp only [promotionHeapFrom, if_pos h]
      rw [hext, List.append_assoc]
    · obtain ⟨ext, hext⟩ := ih heap (i + 1)
      refine ⟨ext, ?_⟩
      simp only [promotionHeapFrom, if_neg h]
      exact hext

/-- The promotion route returns one reference per input reference. -/
theorem promotionHeapFrom_length (lift : ℚ) (duration : ℕ) :
    ∀ (rs : List ℕ) (heap : List ForecastPoint) (i : ℕ),
      (promotionHeapFrom lift duration heap i rs).2.length = rs.length := by
  intro rs
  induction rs with
  | nil => intro heap i; simp [promotionHeapFrom]
  | cons r rs ih =>
    intro heap i
    by_cases h : i < duration <;> simp [promotionHeapFrom, h, ih]

/-- Reads of pre-existing addresses after an extension are unchanged. -/
theorem getElem_append_of_extends {heap ext : List ForecastPoint} {r : ℕ}
    (h : r < heap.length) : (heap ++ ext)[r]? = heap[r]? := by
  rw [List.getElem?_append]
  simp [h]

/-- C7: neither the demand-shock route nor the promotion route mutates the
base forecast: in the heap model every pre-existing forecast-point object
keeps its value (the heap is only extended by fresh allocations), and the
returned forecast is a new reference sequence of the same length. -/
theorem scenario_no_mutation
    (heap : List ForecastPoint) (refs : List ℕ) (multiplier : ℚ) (duration : ℕ) :
    (∃ ext, (demandShockHeap heap refs multiplier duration).1 = heap ++ ext) ∧
    (∀ r, r < heap.length →
      (demandShockHeap heap refs multiplier duration).1[r]? = heap[r]?) ∧
    (demandShockHeap heap refs multiplier duration).2.length = refs.length ∧
    (∃ ext, (promotionHeap heap refs multiplier duration).1 = heap ++ ext) ∧
    (∀ r, r < heap.length →
      (promotionHeap heap refs multiplier duration).1[r]? = heap[r]?) ∧
    (promotionHeap heap refs multiplier duration).2.length = refs.length := by
  obtain ⟨ext1, hext1⟩ := demandShockHeapFrom_extends multiplier duration refs heap 0
  obtain ⟨ext2, hext2⟩ := promotionHeapFrom_extends multiplier duration refs heap 0
  refine ⟨⟨ext1, hext1⟩, ?_, ?_, ⟨ext2, hext2⟩, ?_, ?_⟩
  · intro r hr
    rw [demandShockHeap, hext1]
    exact getElem_append_of_extends hr
  · exact demandShockHeapFrom_length multiplier duration refs heap 0
  · intro r hr
    rw [promotionHeap, hext2]
    exact getElem_append_of_extends hr
  · exact promotionHeapFrom_length multiplier duration refs heap 0

/-- Witness for C7: a one-point heap, one reference, multiplier 2,
duration 1. -/
theorem scenario_no_mutation_witness :
    (demandShockHeap [defaultPoint] [0] 2 1).1[0]? = [defaultPoint][0]? :=
  (scenario_no_mutation [defaultPoint] [0] 2 1).2.1 0 (by norm_num)

-- ### C10

/-- C10: checkPeriodicity returns 0 whenever the series length is at most
the lag, so a 30-point series has monthly (lag 30) autocorrelation strength
0 and detectSeasonality can never report pattern = monthly for it; a
monthly pattern forces at least 31 data points. -/
theorem detectSeasonality_monthly_needs_31 :
    (∀ (values : List ℚ) (lag : ℕ), values.length ≤ lag →
      checkPeriodicity values lag = 0) ∧
    (∀ data : List SalesRecord, data.length = 30 →
      (detectSeasonality data).pattern ≠ some "monthly") ∧
    (∀ data : List SalesRecord,
      (detectSeasonality data).pattern = some "monthly" → 31 ≤ data.length) := by
  have hzero : ∀ (values : List ℚ) (lag : ℕ), values.length ≤ lag →
      checkPeriodicity values lag = 0 := by
    intro values lag h
    simp [checkPeriodicity, h]
  have hmain : ∀ data : List SalesRecord, data.length ≤ 30 →
      (detectSeasonality data).pattern ≠ some "monthly" := by
    intro data hlen
    by_cases hlt : data.length < 30
    · simp [detectSeasonality, hlt]
    · have hvlen : ((data.mergeSort salesLe).map SalesRecord.sales).length ≤ 30 := by
        rw [List.length_map, List.length_mergeSort]
        exact hlen
      have hm : checkPeriodicity ((data.mergeSort salesLe).map SalesRecord.sales) 30 = 0 :=
        hzero _ _ hvlen
      by_cases hw : (3 : ℚ) / 10 <
          checkPeriodicity ((data.mergeSort salesLe).map SalesRecord.sales) 7
      · simp [detectSeasonality, hlt, hw]
      · simp [detectSeasonality, hlt, hw, hm]
        norm_num
        exact fun h => Option.noConfusion h
  refine ⟨hzero, fun data h => hmain data (le_of_eq h), fun data h => ?_⟩
  by_contra hlt
  exact hmain data (by omega) h

/-- Witness for C10: a three-point series checked at lag 5, and an empty
series reported without a monthly pattern. -/
theorem detectSeasonality_monthly_needs_31_witness :
    checkPeriodicity [1, 2, 3] 5 = 0 :=
  detectSeasonality_monthly_needs_31.1 [1, 2, 3] 5 (by norm_num)

-- ### C4

/-- C4: for non-negative inputs calculateStockoutProbability lies in [0,1];
it is 0 when demandStdDev is 0 and otherwise equals the clamped
exp(-0.717 z - 0.416 z²) with z = safetyStock / demandStdDev. -/
theorem calculateStockoutProbability_spec
    (averageDemand safetyStock demandStdDev : ℝ)
    (ha : 0 ≤ averageDemand) (hs : 0 ≤ safetyStock) (hd : 0 ≤ demandStdDev) :
    0 ≤ calculateStockoutProbability averageDemand safetyStock demandStdDev ∧
    calculateStockoutProbability averageDemand safetyStock demandStdDev ≤ 1 ∧
    (demandStdDev = 0 →
      calculateStockoutProbability averageDemand safetyStock demandStdDev = 0) ∧
    (demandStdDev ≠ 0 →
      calculateStockoutProbability averageDemand safetyStock demandStdDev =
        min 1 (max 0 (Real.exp
          (-(717 / 1000) * (safetyStock / demandStdDev)
            - (416 / 1000) * ((safetyStock / demandStdDev)
              * (safetyStock / demandStdDev)))))) := by
  by_cases h : demandStdDev = 0
  · refine ⟨?_, ?_, fun _ => ?_, fun hne => absurd h hne⟩ <;>
      simp [calculateStockoutProbability, h]
  · refine ⟨?_, ?_, fun h0 => absurd h0 h, fun _ => ?_⟩
    · rw [calculateStockoutProbability, if_neg h]
      exact le_min zero_le_one (le_max_left 0 _)
    · rw [calculateStockoutProbability, if_neg h]
      exact min_le_left 1 _
    · rw [calculateStockoutProbability, if_neg h]

/-- Witness for C4 at averageDemand 1, safetyStock 2, demandStdDev 3. -/
theorem calculateStockoutProbability_spec_witness :
    0 ≤ calculateStockoutProbability 1 2 3 ∧
    calculateStockoutProbability 1 2 3 ≤ 1 := by
  have h := calculateStockoutProbability_spec 1 2 3
    (by norm_num) (by norm_num) (by norm_num)
  exact ⟨h.1, h.2.1⟩

-- ### C5

/-- C5 counterexample: calculateEOQ(1, 1, 1) is not the exact
sqrt(2·1·1/1) = sqrt 2; the internal 2-decimal rounding makes the result
rational while sqrt 2 is irrational. -/
theorem calculateEOQ_cex :
    calculateEOQ 1 1 1 ≠ some (Real.sqrt ((2 * 1 * 1) / 1)) := by
  rw [calculateEOQ, if_neg (by norm_num)]
  intro h
  have h2 : (jsRound (Real.sqrt ((2 * 1 * 1) / 1) * 100) : ℝ) / 100
      = Real.sqrt ((2 * 1 * 1) / 1) := Option.some.injEq _ _ ▸ h
  have hrat : Real.sqrt 2 =
      ((((jsRound (Real.sqrt ((2 * 1 * 1) / 1) * 100) : ℚ) / 100 : ℚ)) : ℝ) := by
    push_cast
    rw [h2]
    norm_num
  exact irrational_sqrt_two.ne_rat _ hrat

/-- C5 (amended): calculateEOQ and calculateSafetyStock both apply
2-decimal rounding internally: each returns Math.round(x·100)/100 of the
claimed closed-form value x, an integer multiple of 1/100 within 1/200 of
x, not x itself; chained formulas therefore consume the rounded values. -/
theorem inventoryMath_internal_rounding :
    (∀ annualDemand orderingCost holdingCost : ℝ,
      annualDemand ≠ 0 → orderingCost ≠ 0 → holdingCost ≠ 0 →
      ∃ r, calculateEOQ annualDemand orderingCost holdingCost = some r ∧
        r * 100 = (jsRound
          (Real.sqrt ((2 * annualDemand * orderingCost) / holdingCost) * 100) : ℝ) ∧
        |r - Real.sqrt ((2 * annualDemand * orderingCost) / holdingCost)|
          ≤ 1 / 200) ∧
    (∀ averageDailyDemand leadTimeDays serviceLevel demandStdDev : ℝ,
      calculateSafetyStock averageDailyDemand leadTimeDays serviceLevel demandStdDev
          * 100
        = (jsRound (zScoreFor serviceLevel * demandStdDev
            * Real.sqrt leadTimeDays * 100) : ℝ) ∧
      |calculateSafetyStock averageDailyDemand leadTimeDays serviceLevel demandStdDev
          - zScoreFor serviceLevel * demandStdDev * Real.sqrt leadTimeDays|
        ≤ 1 / 200) := by
  have key : ∀ x : ℝ, |(jsRound (x * 100) : ℝ) / 100 - x| ≤ 1 / 200 := by
    intro x
    have h := jsRound_abs_sub (x * 100)
    have heq : (jsRound (x * 100) : ℝ) / 100 - x
        = ((jsRound (x * 100) : ℝ) - x * 100) / 100 := by ring
    rw [heq, abs_div, abs_of_pos (show (0:ℝ) < 100 by norm_num)]
    linarith
  constructor
  · intro d o h hd ho hh
    refine ⟨(jsRound (Real.sqrt ((2 * d * o) / h) * 100) : ℝ) / 100, ?_, ?_, ?_⟩
    · rw [calculateEOQ, if_neg (by tauto)]
    · field_simp
    · exact key _
  · intro a l sl σ
    refine ⟨?_, ?_⟩
    · rw [calculateSafetyStock]
      field_simp
    · exact key _

/-- Witness for C5 at annualDemand = orderingCost = holdingCost = 1. -/
theorem inventoryMath_internal_rounding_witness :
    ∃ r, calculateEOQ 1 1 1 = some r ∧
      r * 100 = (jsRound (Real.sqrt ((2 * 1 * 1) / 1) * 100) : ℝ) ∧
      |r - Real.sqrt ((2 * 1 * 1) / 1)| ≤ 1 / 200 :=
  inventoryMath_internal_rounding.1 1 1 1 (by norm_num) (by norm_num) (by norm_num)

-- ### ABC classifier lemmas

/-- The classification loop preserves list length. -/
theorem annotateABC_length (t : ℚ) :
    ∀ (l : List ABCItem) (c : ℚ), (annotateABC t c l).length = l.length := by
  intro l
  induction l with
  | nil => intro c; rfl
  | cons hd tl ih =>
    intro c
    simp only [annotateABC, List.length_cons]
    rw [ih]

/-- The classification loop preserves each item value and their order. -/
theorem annotateABC_map_value (t : ℚ) :
    ∀ (l : List ABCItem) (c : ℚ),
      (annotateABC t c l).map ABCItem.annualValue = l.map ABCItem.annualValue := by
  intro l
  induction l with
  | nil => intro c; rfl
  | cons hd tl ih =>
    intro c
    simp only [annotateABC, List.map_cons]
    rw [ih]

/-- classChar only ever produces A, B or C. -/
theorem classChar_cases (p : JSNum) :
    classChar p = 'A' ∨ classChar p = 'B' ∨ classChar p = 'C' := by
  rw [classChar]
  by_cases h1 : jsLeNum p (4 / 5) = true
  · simp [h1]
  · by_cases h2 : jsLeNum p (19 / 20) = true <;>
      simp [h1, h2]

/-- Every item produced by the classification loop carries class A, B
or C. -/
theorem annotateABC_cls (t : ℚ) :
    ∀ (l : List ABCItem) (c : ℚ), ∀ x ∈ annotateABC t c l,
      x.cls = some 'A' ∨ x.cls = some 'B' ∨ x.cls = some 'C' := by
  intro l
  induction l with
  | nil => intro c x hx; simp [annotateABC] at hx
  | cons hd tl ih =>
    intro c x hx
    simp only [annotateABC, List.mem_cons] at hx
    rcases hx with hx | hx
    · subst hx
      rcases classChar_cases (jsDiv (c + hd.annualValue) t) with h | h | h <;>
        simp [h]
    · exact ih (c + hd.annualValue) x hx

/-- Counting A, B and C classes exhausts a list whose members all carry
one of the three classes. -/
theorem countClass_sum :
    ∀ l : List ABCItem,
      (∀ x ∈ l, x.cls = some 'A' ∨ x.cls = some 'B' ∨ x.cls = some 'C') →
      countClass 'A' l + countClass 'B' l + countClass 'C' l = l.length := by
  intro l
  induction l with
  | nil => intro _h; rfl
  | cons hd tl ih =>
    intro h
    have hhd := h hd (List.mem_cons_self hd tl)
    have htl := ih (fun x hx => h x (List.mem_cons_of_mem hd hx))
    rcases hhd with h1 | h1 | h1 <;>
      simp [countClass, List.countP_cons, h1] <;>
      simp [countClass] at htl <;>
      omega

/-- A list of nonpositive rationals has nonpositive sum. -/
theorem list_sum_nonpos :
    ∀ l : List ℚ, (∀ x ∈ l, x ≤ 0) → l.sum ≤ 0 := by
  intro l
  induction l with
  | nil => intro _h; simp
  | cons hd tl ih =>
    intro h
    simp only [List.sum_cons]
    have h1 := h hd (List.mem_cons_self hd tl)
    have h2 := ih (fun x hx => h x (List.mem_cons_of_mem hd hx))
    linarith

/-- Every front segment of a descending list of total 0 has nonnegative
sum (the front holds the largest elements). -/
theorem take_sum_nonneg_of_sorted (l : List ℚ)
    (hp : List.Pairwise (fun a b : ℚ => b ≤ a) l) (h0 : l.sum = 0) :
    ∀ n : ℕ, 0 ≤ (l.take n).sum := by
  intro n
  by_contra hneg
  push_neg at hneg
  have hex : ∃ x ∈ l.take n, x < 0 := by
    by_contra hall
    push_neg at hall
    exact absurd (List.sum_nonneg fun x hx => hall x hx) (not_le.mpr hneg)
  obtain ⟨x, hxmem, hxneg⟩ := hex
  have hsplit := List.take_append_drop n l
  have hp2 : List.Pairwise (fun a b : ℚ => b ≤ a) (l.take n ++ l.drop n) := by
    rw [hsplit]
    exact hp
  have hpair := (List.pairwise_append.mp hp2).2.2
  have hdropsum : (l.drop n).sum ≤ 0 :=
    list_sum_nonpos _ fun b hb => le_trans (hpair x hxmem b hb) (le_of_lt hxneg)
  have hlt : l.sum < 0 := by
    rw [← hsplit, List.sum_append]
    linarith
  rw [h0] at hlt
  exact absurd hlt (by norm_num)

/-- With totalValue 0 and all running cumulative sums nonnegative, the JS
division yields NaN or +Infinity at every step, so every comparison with
the thresholds is false and every class is C. -/
theorem annotateABC_all_C :
    ∀ (l : List ABCItem) (c : ℚ),
      (∀ k : ℕ, 0 ≤ c + ((l.map ABCItem.annualValue).take (k + 1)).sum) →
      ∀ x ∈ annotateABC 0 c l, x.cls = some 'C' := by
  intro l
  induction l with
  | nil => intro c _h x hx; simp [annotateABC] at hx
  | cons hd tl ih =>
    intro c hcum x hx
    simp only [annotateABC, List.mem_cons] at hx
    rcases hx with hx | hx
    · subst hx
      have h0 : 0 ≤ c + hd.annualValue := by
        have := hcum 0
        simpa using this
      have hchar : classChar (jsDiv (c + hd.annualValue) 0) = 'C' := by
        rcases lt_or_eq_of_le h0 with hpos | heq
        · rw [jsDiv, if_pos rfl, if_neg (by linarith), if_pos hpos]
          simp [classChar, jsLeNum]
        · rw [jsDiv, if_pos rfl, if_pos heq.symm]
          simp [classChar, jsLeNum]
      simp [hchar]
    · refine ih (c + hd.annualValue) (fun k => ?_) x hx
      have := hcum (k + 1)
      simp only [List.map_cons, List.take_succ_cons, List.sum_cons] at this ⊢
      linarith

/-- abcLe ordering of items is the value ordering of their value list. -/
theorem pairwise_abcLe_iff (l : List ABCItem) :
    List.Pairwise (fun a b => abcLe a b = true) l ↔
    List.Pairwise (fun x y : ℚ => y ≤ x) (l.map ABCItem.annualValue) := by
  rw [List.pairwise_map]
  constructor <;> intro h <;>
    exact h.imp (fun hab => by simpa [abcLe] using hab)

/-- The abcLe comparator is transitive. -/
theorem abcLe_trans :
    ∀ a b c : ABCItem, abcLe a b = true → abcLe b c = true → abcLe a c = true := by
  intro a b c hab hbc
  simp only [abcLe, decide_eq_true_eq] at *
  exact le_trans hbc hab

/-- The abcLe comparator is total. -/
theorem abcLe_total : ∀ a b : ABCItem, (abcLe a b || abcLe b a) = true := by
  intro a b
  simp only [abcLe, Bool.or_eq_true, decide_eq_true_eq]
  exact le_total b.annualValue a.annualValue

/-- Re-running the classification loop on its own output only rewrites
each class field with the same character again. -/
theorem annotateABC_annotateABC (t : ℚ) :
    ∀ (l : List ABCItem) (c : ℚ),
      annotateABC t c (annotateABC t c l) = annotateABC t c l := by
  intro l
  induction l with
  | nil => intro c; rfl
  | cons hd tl ih =>
    intro c
    simp only [annotateABC]
    exact congrArg _ (ih (c + hd.annualValue))

-- ### C1

/-- C1: classifyABC sorts descending by value and classifies every item by
running cumulative fraction (A while <= 0.8, B while <= 0.95, else C): the
output has one item per input item, each item carries class A, B or C (so
the three class counts sum to the input length), and when the total value
is 0 every item is classified C (the JS division then yields NaN or
Infinity, both of which fail the A and B threshold tests). -/
theorem classifyABC_spec (items : List ABCItem) (_hne : items ≠ []) :
    (classifyABC items).length = items.length ∧
    List.Pairwise (fun a b : ABCItem => b.annualValue ≤ a.annualValue)
      (classifyABC items) ∧
    (∀ x ∈ classifyABC items,
      x.cls = some 'A' ∨ x.cls = some 'B' ∨ x.cls = some 'C') ∧
    countClass 'A' (classifyABC items) + countClass 'B' (classifyABC items)
      + countClass 'C' (classifyABC items) = items.length ∧
    ((items.map ABCItem.annualValue).sum = 0 →
      ∀ x ∈ classifyABC items, x.cls = some 'C') := by
  have hdef : classifyABC items
      = annotateABC ((items.mergeSort abcLe).map ABCItem.annualValue).sum 0
          (items.mergeSort abcLe) := rfl
  have hs := List.sorted_mergeSort abcLe_trans abcLe_total items
  have hvalpair : List.Pairwise (fun x y : ℚ => y ≤ x)
      ((items.mergeSort abcLe).map ABCItem.annualValue) :=
    (pairwise_abcLe_iff _).mp hs
  have hmap : (classifyABC items).map ABCItem.annualValue
      = (items.mergeSort abcLe).map ABCItem.annualValue := by
    rw [hdef, annotateABC_map_value]
  have hlen : (classifyABC items).length = items.length := by
    rw [hdef, annotateABC_length, List.length_mergeSort]
  have hcls : ∀ x ∈ classifyABC items,
      x.cls = some 'A' ∨ x.cls = some 'B' ∨ x.cls = some 'C' := by
    rw [hdef]
    exact annotateABC_cls _ _ 0
  refine ⟨hlen, ?_, hcls, ?_, ?_⟩
  · have h := hvalpair
    rw [← hmap] at h
    exact List.pairwise_map.mp h
  · rw [countClass_sum (classifyABC items) hcls]
    exact hlen
  · intro hsum
    have hperm : ((items.mergeSort abcLe).map ABCItem.annualValue).Perm
        (items.map ABCItem.annualValue) :=
      (List.mergeSort_perm items abcLe).map ABCItem.annualValue
    have hT0 : ((items.mergeSort abcLe).map ABCItem.annualValue).sum = 0 := by
      rw [hperm.sum_eq]
      exact hsum
    rw [hdef, hT0]
    refine annotateABC_all_C (items.mergeSort abcLe) 0 (fun k => ?_)
    have := take_sum_nonneg_of_sorted _ hvalpair hT0 (k + 1)
    simpa using this

/-- Witness for C1 on the two-item list with values 5 and -5 (total 0). -/
theorem classifyABC_spec_witness :
    (classifyABC [{ annualValue := 5 }, { annualValue := -5 }]).length = 2 :=
  (classifyABC_spec [{ annualValue := 5 }, { annualValue := -5 }]
    (by simp)).1

-- ### C9

/-- C9: classifyABC is idempotent — applying it to its own (already
annotated) output reproduces exactly the same list, class assignments
included: the output is already sorted for the comparator so the stable
sort fixes it, the total is unchanged, and the loop rewrites each class
field with the same character. -/
theorem classifyABC_idem (items : List ABCItem) :
    classifyABC (classifyABC items) = classifyABC items := by
  have hdef : classifyABC items
      = annotateABC ((items.mergeSort abcLe).map ABCItem.annualValue).sum 0
          (items.mergeSort abcLe) := rfl
  have hs := List.sorted_mergeSort abcLe_trans abcLe_total items
  have hmap : (classifyABC items).map ABCItem.annualValue
      = (items.mergeSort abcLe).map ABCItem.annualValue := by
    rw [hdef, annotateABC_map_value]
  have hpout : List.Pairwise (fun a b : ABCItem => abcLe a b = true)
      (classifyABC items) := by
    rw [pairwise_abcLe_iff, hmap]
    exact (pairwise_abcLe_iff _).mp hs
  have hms : (classifyABC items).mergeSort abcLe = classifyABC items :=
    List.mergeSort_of_sorted hpout
  have houter : classifyABC (classifyABC items)
      = annotateABC (((classifyABC items).mergeSort abcLe).map
          ABCItem.annualValue).sum 0
          ((classifyABC items).mergeSort abcLe) := rfl
  rw [houter, hms, hmap, hdef]
  exact annotateABC_annotateABC _ _ 0
